import Mathlib

/-!  Verification of the parallel resumable HTTP downloader in
scripts/download_large.py.

The development shallowly embeds the engine as pure functions over
explicit environment oracles:

 -  HTTP traffic is an oracle value per request (the probe has one HEAD
    response and one ranged GET response; each worker has one response
    per attempt; the sequential transfer has one response).  A response
    carries the status, the two headers the engine reads, the streamed
    body chunks, and an optional transport fault raised after the
    listed chunks.  A request that fails before any response is an
    error value.
 -  The filesystem is an explicit record: the output file bytes, the
    state directory flag, and one resume-state entry per segment.
    Filesystem faults (create, stat, resize, remove, rmdir) are oracle
    flags, one per operation the source performs.
 -  Python exceptions are Except values; paths of the source that let
    an exception escape are error results of the embedding.
 -  Time only matters through the periodic state flush, so each body
    chunk carries a flag of the time oracle telling whether the 0.25 s
    flush interval has elapsed after that chunk.
 -  Byte counts and offsets are Int, as in Python; byte payloads are
    lists of Nat.
 -  A resume-state file holds the decimal rendering of the confirmed
    count.  Its content is modelled after parsing: none stands for a
    file that is missing, empty, or unparsable (all read as 0 by
    the reader, mirroring the except branch), some v for a file
    holding the decimal text of v.
 -  Workers run on disjoint state entries and disjoint output ranges,
    so the thread pool is modelled by running them in index order; the
    aggregation of their outcomes in the source is order independent.
-/

set_option maxRecDepth 16000

/-- Bytes of one body chunk paired with the time-oracle flag saying
whether the periodic state flush fires after this chunk. -/
abbrev BodyChunk := List Nat × Bool

/-- An HTTP response as observed by the engine: status code, the two
headers it ever reads, the streamed body, and an optional transport
fault raised by the stream after the listed chunks were yielded. -/
structure HttpResponse where
  status : Nat
  contentLength : Option (List Char) := none
  contentRange : Option (List Char) := none
  chunks : List BodyChunk := []
  abortErr : Option String := none
deriving Repr

/-- Numeric value of a digit string, most significant first. -/
def digitsVal (cs : List Char) : Nat :=
  cs.foldl (fun n c => n * 10 + (c.toNat - 48)) 0

/-- Python str.isdigit followed by int: some value when the characters
are a nonempty digit run, none otherwise. -/
def pyParseNat (cs : List Char) : Option Nat :=
  if cs ≠ [] ∧ cs.all Char.isDigit then some (digitsVal cs) else none

/-- Python str.strip: drop whitespace from both ends. -/
def pyStrip (cs : List Char) : List Char :=
  ((cs.dropWhile Char.isWhitespace).reverse.dropWhile Char.isWhitespace).reverse

/-- Python int applied to a string: strip, optional sign, digit run;
none models the ValueError path. -/
def pyParseInt (cs : List Char) : Option Int :=
  match pyStrip cs with
  | '-' :: rest => (pyParseNat rest).map (fun n => -(n : Int))
  | '+' :: rest => (pyParseNat rest).map (fun n => (n : Int))
  | t => (pyParseNat t).map (fun n => (n : Int))

/-- Python str.split on the slash character. -/
def splitSlash : List Char → List (List Char)
  | [] => [[]]
  | c :: rest =>
    let r := splitSlash rest
    if c = '/' then [] :: r else (c :: r.headD []) :: r.tail

/-- Python str.startswith, evaluated over the character lists. -/
def pyStartsWith (m px : String) : Bool := px.toList.isPrefixOf m.toList

/-- Size taken from the HEAD probe, mirroring the first try block of
probe_size_and_range: a transport fault, an error status (raising in
raise_for_status), a missing header or an unparsable header all leave
the initial size 0. -/
def headSize (head : Except String HttpResponse) : Int :=
  match head with
  | Except.error _ => 0
  | Except.ok r =>
    if 400 ≤ r.status ∧ r.status < 600 then 0
    else
      match r.contentLength with
      | none => 0
      | some s => (pyParseInt s).getD 0

/-- Total parsed from a Content-Range header value, mirroring the
recovery block: require a slash, take the last slash-separated field,
strip it, and accept a pure digit run. -/
def crTotal (cr : List Char) : Option Nat :=
  if 2 ≤ (splitSlash cr).length then
    pyParseNat (pyStrip ((splitSlash cr).getLastD []))
  else none

/-- probe_size_and_range: HEAD for the declared length, then a one byte
ranged GET; range support demands status 206 together with a
Content-Range header; when the size is still 0 the total is recovered
from the Content-Range value when it parses. -/
def probe_size_and_range (head rng : Except String HttpResponse) : Int × Bool :=
  let size := headSize head
  match rng with
  | Except.error _ => (size, false)
  | Except.ok r =>
    let range_ok := r.status == 206 && r.contentRange.isSome
    let size2 :=
      if size = 0 then
        match r.contentRange with
        | some cr =>
          match crTotal cr with
          | some n => (n : Int)
          | none => size
        | none => size
      else size
    (size2, range_ok)

/-- Segment length of the planner: the ceiling of size / parts, the
exact value of math.ceil on these integers. -/
def part_size (size parts : Nat) : Nat := (size + parts - 1) / parts

/-- Planned inclusive lower bound of segment i. -/
def seg_start (size parts : Nat) (i : Nat) : Int :=
  (i : Int) * part_size size parts

/-- Planned inclusive upper bound of segment i, clamped to the last
byte of the resource. -/
def seg_end (size parts : Nat) (i : Nat) : Int :=
  min ((i : Int) * part_size size parts + part_size size parts - 1) ((size : Int) - 1)

/-- Byte set of planned segment i. -/
def segSet (size parts : Nat) (i : Nat) : Finset Int :=
  Finset.Icc (seg_start size parts i) (seg_end size parts i)

/-- Planned byte count of segment i, the expected variable of the
worker and of the verification loop. -/
def expectedLen (size parts : Nat) (i : Nat) : Int :=
  seg_end size parts i - seg_start size parts i + 1

/-- Reader of one resume-state entry, mirroring _read_state: a missing,
empty or unparsable file reads as 0. -/
def read_state (c : Option Int) : Int := c.getD 0

/-- Writer of one resume-state entry, mirroring _write_state (the
write-new-then-replace makes the update atomic; the stored text is the
decimal rendering of the value). -/
def write_state (v : Int) : Option Int := some v

/-- Positional write into the output bytes, mirroring os.pwrite: bytes
before the offset are kept (zero filled when the offset is past the
end, as for a sparse file), the payload overwrites in place, bytes
after it are kept. -/
def write_at (c : List Nat) (o : Nat) (d : List Nat) : List Nat :=
  let base := c ++ List.replicate (o + d.length - c.length) 0
  base.take o ++ d ++ base.drop (o + d.length)

/-- Running state of one streaming attempt: output bytes, running
write offset, running confirmed count, state entry, progress added. -/
structure StreamSt where
  file : List Nat
  writeOff : Int
  localDone : Int
  st : Option Int
  progress : Int

/-- Body streaming loop of one attempt: empty chunks are skipped, each
payload is written at the running offset, the offset and the counters
advance, and the state entry is flushed when the time oracle fires.
A write fault stops the stream with the error and the state so far. -/
def streamChunks : List BodyChunk → StreamSt → StreamSt × Option String
  | [], s => (s, none)
  | (d, fl) :: rest, s =>
    if d.length = 0 then streamChunks rest s
    else if s.writeOff < 0 then (s, some "negative_seek")
    else
      let ld := s.localDone + d.length
      streamChunks rest
        { file := write_at s.file s.writeOff.toNat d, writeOff := s.writeOff + d.length,
          localDone := ld, st := if fl then write_state ld else s.st,
          progress := s.progress + d.length }

/-- Outcome of one attempt body: finished carries a return of the
source function, failed carries an exception caught by the retry
loop. -/
inductive AttemptRes where
  | finished (ok : Bool) (msg : String)
  | failed (e : String)
deriving Repr

/-- One attempt of download_part_direct after the completeness check:
issue the ranged request, demand status 206 (else the distinguished
range_not_honored return), demand a Content-Range header (else the
missing_content_range return), stream the body, flush the final
confirmed count, and classify a stream that ended early as a
short_read exception. -/
def runAttempt (r? : Except String HttpResponse) (start endB done : Int)
    (st : Option Int) (file : List Nat) : AttemptRes × Option Int × List Nat × Int :=
  let expected := endB - start + 1
  match r? with
  | Except.error e => (AttemptRes.failed e, st, file, 0)
  | Except.ok r =>
    if r.status ≠ 206 then
      (AttemptRes.finished false ("range_not_honored_status_" ++ toString r.status), st, file, 0)
    else if r.contentRange = none then
      (AttemptRes.finished false ("missing_content_range"), st, file, 0)
    else
      let p := streamChunks r.chunks
        { file := file, writeOff := start + done, localDone := done, st := st, progress := 0 }
      match p.2 with
      | some e => (AttemptRes.failed e, p.1.st, p.1.file, p.1.progress)
      | none =>
        match r.abortErr with
        | some e => (AttemptRes.failed e, p.1.st, p.1.file, p.1.progress)
        | none =>
          let st2 := write_state p.1.localDone
          if expected ≤ read_state st2 then
            (AttemptRes.finished true ("ok"), st2, p.1.file, p.1.progress)
          else
            (AttemptRes.failed ("short_read"), st2, p.1.file, p.1.progress)

/-- Result of the attempt loop of one worker: the returned pair of the
source function, the final state entry and output bytes, the progress
added, the ranged requests issued, and the exponents of the backoff
sleeps taken between attempts. -/
structure LoopOut where
  ok : Bool
  msg : String
  st : Option Int
  file : List Nat
  progress : Int
  requests : List (Int × Int)
  sleeps : List Nat
deriving Repr

/-- Attempt loop of download_part_direct.  The fuel argument counts the
loop iterations still allowed by the while condition, so the loop is
entered with fuel retries + 1 and attempt 0; an attempt that starts
when the confirmed count already covers the segment returns ok without
a request; an exception within the final allowed attempt returns the
failure carrying that last error, otherwise the loop sleeps backoff to
the power attempt + 1 and retries. -/
def workerLoop (resp : Nat → Except String HttpResponse) (start endB : Int) (retries : Nat) :
    Nat → Nat → Option Int → List Nat → LoopOut
  | 0, _, st, file => ⟨false, "unknown", st, file, 0, [], []⟩
  | fuel + 1, attempt, st, file =>
    let expected := endB - start + 1
    let done := read_state st
    if expected ≤ done then ⟨true, "ok", st, file, 0, [], []⟩
    else
      let req := (start + done, endB)
      match runAttempt (resp attempt) start endB done st file with
      | (AttemptRes.finished k m, st2, f2, dp) => ⟨k, m, st2, f2, dp, [req], []⟩
      | (AttemptRes.failed e, st2, f2, dp) =>
        if retries < attempt + 1 then
          ⟨false, "exception: " ++ e, st2, f2, dp, [req], []⟩
        else
          let rest := workerLoop resp start endB retries fuel (attempt + 1) st2 f2
          ⟨rest.ok, rest.msg, rest.st, rest.file, dp + rest.progress,
            req :: rest.requests, (attempt + 1) :: rest.sleeps⟩

/-- Observable outcome of one worker: the result of the future (error
when the initial os.open of the output path raised), the final state
entry, output bytes, progress added, requests issued and sleeps
taken. -/
structure WorkerOut where
  result : Except String (Bool × String)
  st : Option Int
  file : Option (List Nat)
  progress : Int
  requests : List (Int × Int)
  sleeps : List Nat

/-- download_part_direct: open the output file (raising when it is
absent), then run the attempt loop with retries + 1 allowed
iterations. -/
def download_part_direct (resp : Nat → Except String HttpResponse)
    (start endB : Int) (retries : Nat) (st0 : Option Int) (out0 : Option (List Nat)) :
    WorkerOut :=
  match out0 with
  | none => ⟨Except.error "no_such_file", st0, none, 0, [], []⟩
  | some file =>
    let r := workerLoop resp start endB retries (retries + 1) 0 st0 file
    ⟨Except.ok (r.ok, r.msg), r.st, some r.file, r.progress, r.requests, r.sleeps⟩

/-- Filesystem as the engine observes it: the output file bytes, the
presence of the sidecar state directory, and the parsed content of the
resume-state entry of each segment index. -/
structure Fs where
  outFile : Option (List Nat)
  stateDir : Bool
  stateFiles : Nat → Option Int

/-- Environment oracle of one run: one response per request the source
can issue, and one fault flag per fallible filesystem operation. -/
structure Env where
  headResp : Except String HttpResponse
  probeResp : Except String HttpResponse
  seqResp : Except String HttpResponse
  seqOpenFails : Bool := false
  mkdirFails : Bool := false
  createFails : Bool := false
  statFails : Bool := false
  resizeFails : Bool := false
  workerResp : Nat → Nat → Except String HttpResponse := fun _ _ => Except.error "unused"
  finalStatFails : Bool := false
  removeFails : Nat → Bool := fun _ => false
  rmdirFails : Bool := false

/-- single_thread_download: one unranged GET streamed sequentially into
a freshly truncated output file.  The source wraps nothing in a
handler here, so the transport fault, the error status raised by
raise_for_status, the open fault and a mid-stream fault all escape as
exceptions, after the yielded chunks were already written. -/
def single_thread_download (resp : Except String HttpResponse) (openFails : Bool) (fs : Fs) :
    Except String Bool × Fs :=
  match resp with
  | Except.error e => (Except.error e, fs)
  | Except.ok r =>
    if 400 ≤ r.status ∧ r.status < 600 then
      (Except.error ("http_status_" ++ toString r.status), fs)
    else if openFails then (Except.error ("open_failed"), fs)
    else
      let content := (r.chunks.map Prod.fst).flatten
      let fs2 := { fs with outFile := some content }
      match r.abortErr with
      | some e => (Except.error e, fs2)
      | none => (Except.ok true, fs2)

/-- Effect of f.truncate(n) on the bytes of a file opened without
truncation: shorten, or zero extend. -/
def truncateTo (c : List Nat) (n : Nat) : List Nat :=
  c.take n ++ List.replicate (n - c.length) 0

/-- Dispatch of the workers, one per segment index, each on its own
state entry and its own byte range of the shared output file. -/
def runWorkersAux (env : Env) (sizeN parts retries : Nat) :
    List Nat → Fs → Fs × List (Except String (Bool × String)) × Int
  | [], fs => (fs, [], 0)
  | i :: rest, fs =>
    let w := download_part_direct (env.workerResp i) (seg_start sizeN parts i)
      (seg_end sizeN parts i) retries (fs.stateFiles i) fs.outFile
    let fs2 : Fs := { fs with
      stateFiles := Function.update fs.stateFiles i w.st,
      outFile := match w.file with | some f => some f | none => fs.outFile }
    let r := runWorkersAux env sizeN parts retries rest fs2
    (r.1, w.result :: r.2.1, w.progress + r.2.2)

/-- Initial progress computed from pre-existing resume entries, each
clamped to its planned segment length. -/
def initProgress (sizeN parts : Nat) (fs : Fs) : Int :=
  ((List.range parts).map
    (fun i => min (read_state (fs.stateFiles i)) (expectedLen sizeN parts i))).sum

/-- Completion test the orchestrator applies to one future result. -/
def isWorkerOk (r : Except String (Bool × String)) : Bool :=
  match r with
  | Except.ok (true, _) => true
  | _ => false

/-- Escalation test of the orchestrator: only a failure message with
the range_not_honored_status_ marker arms the global fallback. -/
def isRangeFail (r : Except String (Bool × String)) : Bool :=
  match r with
  | Except.ok (false, m) => pyStartsWith m ("range_not_honored_status_")
  | _ => false

/-- Observables of one orchestrator run.  presized is the output bytes
right after the pre-sizing step when the parallel phase was reached;
fsAfterWorkers and workerResults are the filesystem and future results
when the worker pool ran; verified is the list of confirmed counts the
verification loop read; cleanupRan tells whether the cleanup block was
entered. -/
structure RunResult where
  result : Except String Bool
  fs : Fs
  seqRan : Bool
  presized : Option (List Nat) := none
  fsAfterWorkers : Option Fs := none
  workerResults : Option (List (Except String (Bool × String))) := none
  fallback : Bool := false
  verified : Option (List Int) := none
  cleanupRan : Bool := false
  progressInit : Int := 0
  progressAdded : Int := 0

/-- Cleanup loop over the state entries: one try block wraps the whole
loop and the rmdir, so the first failing remove abandons the rest and
the directory; a failing rmdir leaves only the directory. -/
def removeStates (env : Env) : List Nat → Fs → Fs × Bool
  | [], fs => (fs, true)
  | i :: rest, fs =>
    if env.removeFails i then (fs, false)
    else removeStates env rest { fs with stateFiles := Function.update fs.stateFiles i none }

/-- Cleanup of the resume store on full success: remove every state
entry, then the directory, ignoring faults. -/
def cleanupStates (env : Env) (parts : Nat) (fs : Fs) : Fs :=
  let p := removeStates env (List.range parts) fs
  if p.2 ∧ env.rmdirFails = false then { p.1 with stateDir := false } else p.1

/-- Parallel phase of the orchestrator, entered after the probe and the
pre-sizing succeeded: compute initial progress, run one worker per
segment, escalate an armed range_not_honored marker into the global
sequential fallback, report failure when any worker failed, verify
every confirmed count against its planned length and (when the final
stat succeeds) the output size against the probed total, and clean up
the resume store on full success. -/
def parallelPhase (env : Env) (fs : Fs) (parts retries sizeN : Nat) : RunResult :=
  let pInit := initProgress sizeN parts fs
  let w := runWorkersAux env sizeN parts retries (List.range parts) fs
  let fs1 := w.1
  let rs := w.2.1
  if rs.any isRangeFail then
    let sq := single_thread_download env.seqResp env.seqOpenFails fs1
    { result := sq.1, fs := sq.2, seqRan := true, presized := fs.outFile,
      fsAfterWorkers := some fs1, workerResults := some rs, fallback := true,
      progressInit := pInit, progressAdded := w.2.2 }
  else if rs.all isWorkerOk = false then
    { result := Except.ok false, fs := fs1, seqRan := false, presized := fs.outFile,
      fsAfterWorkers := some fs1, workerResults := some rs,
      progressInit := pInit, progressAdded := w.2.2 }
  else
    let confirmed := (List.range parts).map (fun i => read_state (fs1.stateFiles i))
    if (List.range parts).any
        (fun i => read_state (fs1.stateFiles i) < expectedLen sizeN parts i) then
      { result := Except.ok false, fs := fs1, seqRan := false, presized := fs.outFile,
        fsAfterWorkers := some fs1, workerResults := some rs, verified := some confirmed,
        progressInit := pInit, progressAdded := w.2.2 }
    else if env.finalStatFails = false ∧ (fs1.outFile.getD []).length ≠ sizeN then
      { result := Except.ok false, fs := fs1, seqRan := false, presized := fs.outFile,
        fsAfterWorkers := some fs1, workerResults := some rs, verified := some confirmed,
        progressInit := pInit, progressAdded := w.2.2 }
    else
      let fs2 := cleanupStates env parts fs1
      { result := Except.ok true, fs := fs2, seqRan := false, presized := fs.outFile,
        fsAfterWorkers := some fs1, workerResults := some rs, verified := some confirmed,
        cleanupRan := true, progressInit := pInit, progressAdded := w.2.2 }

/-- parallel_download: probe; degrade to the sequential transfer when
the size is unknown, ranges are unsupported or at most one part was
requested; create the state directory with os.makedirs, an unguarded
call whose fault (for instance the sidecar path existing as a regular
file, or a permission error, in both of which no directory is
created) escapes as an exception; pre-size the output file, where
only the stat or resize fault of an existing file degrades to the
sequential transfer while a create fault of a missing file escapes as
an exception; then run the parallel phase. -/
def parallel_download (env : Env) (fs0 : Fs) (parts retries : Nat) : RunResult :=
  let pr := probe_size_and_range env.headResp env.probeResp
  if pr.1 ≤ 0 then
    let sq := single_thread_download env.seqResp env.seqOpenFails fs0
    { result := sq.1, fs := sq.2, seqRan := true }
  else if pr.2 = false ∨ parts ≤ 1 then
    let sq := single_thread_download env.seqResp env.seqOpenFails fs0
    { result := sq.1, fs := sq.2, seqRan := true }
  else if env.mkdirFails then
    { result := Except.error "makedirs_failed", fs := fs0, seqRan := false }
  else
    let sizeN := pr.1.toNat
    let fs1 : Fs := { fs0 with stateDir := true }
    match fs0.outFile with
    | none =>
      if env.createFails then
        { result := Except.error "presize_create_failed", fs := fs1, seqRan := false }
      else
        parallelPhase env { fs1 with outFile := some (List.replicate sizeN 0) }
          parts retries sizeN
    | some content =>
      if env.statFails then
        let sq := single_thread_download env.seqResp env.seqOpenFails fs1
        { result := sq.1, fs := sq.2, seqRan := true }
      else if content.length ≠ sizeN then
        if env.resizeFails then
          let sq := single_thread_download env.seqResp env.seqOpenFails fs1
          { result := sq.1, fs := sq.2, seqRan := true }
        else
          parallelPhase env { fs1 with outFile := some (truncateTo content sizeN) }
            parts retries sizeN
      else parallelPhase env fs1 parts retries sizeN

/-- Total byte count of a response body. -/
def chunksTotal (cks : List BodyChunk) : Int :=
  (cks.map (fun c => (c.1.length : Int))).sum

/-! Concrete fixtures used by witnesses and counterexamples.  Each is a
closed environment or filesystem on which the run evaluates. -/

/-- Empty filesystem: no output file, no state directory, no resume
entries. -/
def fsEmpty : Fs :=
  { outFile := none, stateDir := false, stateFiles := fun _ => none }

/-- Filesystem with an existing two byte output file and no resume
entries. -/
def fsTwoByte : Fs :=
  { outFile := some [9, 9], stateDir := false, stateFiles := fun _ => none }

/-- Filesystem whose resume entries claim 5 confirmed bytes for
segment 0 and 1 for segment 1, on a resource of 2 bytes split in 2. -/
def fsOvercount : Fs :=
  { outFile := none, stateDir := false,
    stateFiles := fun i => if i = 0 then some 5 else some 1 }

/-- HEAD response declaring a two byte resource. -/
def headTwo : Except String HttpResponse :=
  Except.ok { status := 200, contentLength := some ("2".toList) }

/-- Ranged probe response: 206 with a Content-Range total of 2. -/
def probeTwo : Except String HttpResponse :=
  Except.ok { status := 206, contentRange := some ("bytes 0-0/2".toList) }

/-- Well behaved worker response delivering the single byte 97 + i of
segment i of the two byte resource. -/
def respSeg (i : Nat) : Except String HttpResponse :=
  Except.ok { status := 206, contentRange := some ("bytes".toList),
              chunks := [([97 + i], false)] }

/-- Response with partial-content status but no Content-Range header. -/
def resp206NoCR : Except String HttpResponse :=
  Except.ok { status := 206 }

/-- Plain 200 response body with no chunks, the shape a server gives
when it ignores the Range header (body irrelevant here). -/
def plain200Body : HttpResponse :=
  { status := 200 }

/-- Plain 200 response with no body. -/
def respPlain200 : Except String HttpResponse :=
  Except.ok plain200Body

/-- Filesystem as it stands right after the pre-sizing step of a fresh
two byte run: output file of two zero bytes, state directory created,
no resume entries. -/
def fsPre2 : Fs :=
  { outFile := some (List.replicate 2 0), stateDir := true, stateFiles := fun _ => none }

/-- Sequential transfer response: 200 carrying the two bytes 5, 6. -/
def respSeqBody : Except String HttpResponse :=
  Except.ok { status := 200, chunks := [([5, 6], false)] }

/-- Probe response used for the pure probe witness: 206 with the total
12345 in Content-Range. -/
def respProbeBig : HttpResponse :=
  { status := 206, contentRange := some ("bytes 0-0/12345".toList) }

/-- Happy environment: two byte resource, ranges honored, each worker
delivers its byte on the first attempt. -/
def envHappy : Env :=
  { headResp := headTwo, probeResp := probeTwo, seqResp := Except.error "seq_unused",
    workerResp := fun i _ => respSeg i }

/-- Environment where both probe requests die and the sequential
transfer dies too. -/
def envAllDead : Env :=
  { headResp := Except.error "head_down", probeResp := Except.error "probe_down",
    seqResp := Except.error "connection_refused" }

/-- Environment where worker 0 receives 206 without Content-Range and
worker 1 behaves. -/
def envNoCR : Env :=
  { headResp := headTwo, probeResp := probeTwo, seqResp := Except.error "seq_unused",
    workerResp := fun i _ => if i = 0 then resp206NoCR else respSeg i }

/-- Environment where every worker request is answered 200 and the
sequential transfer delivers the resource. -/
def envAll200 : Env :=
  { headResp := headTwo, probeResp := probeTwo, seqResp := respSeqBody,
    workerResp := fun _ _ => respPlain200 }

/-- Happy environment whose remove of state entry 0 fails. -/
def envRmFail : Env :=
  { headResp := headTwo, probeResp := probeTwo, seqResp := Except.error "seq_unused",
    workerResp := fun i _ => respSeg i, removeFails := fun i => decide (i = 0) }

/-- Happy environment where creating the missing output file fails. -/
def envCreateFail : Env :=
  { headResp := headTwo, probeResp := probeTwo, seqResp := Except.error "seq_unused",
    workerResp := fun i _ => respSeg i, createFails := true }

/-- Environment where the stat of the existing output file fails and
the sequential transfer delivers the resource. -/
def envStatFail : Env :=
  { headResp := headTwo, probeResp := probeTwo, seqResp := respSeqBody,
    statFails := true }

/-- Response of the worker level witnesses: 206 with Content-Range and
a three byte chunk. -/
def respThreeBody : HttpResponse :=
  { status := 206, contentRange := some ("bytes".toList),
    chunks := [([1, 2, 3], false)] }

/-- Worker response oracle for the worker level witnesses: every
attempt is answered with respThreeBody. -/
def respThree : Nat → Except String HttpResponse :=
  fun _ => Except.ok respThreeBody

/-- Worker response oracle whose attempt a dies with a distinct
transport error. -/
def respDying : Nat → Except String HttpResponse :=
  fun a => Except.error ("err" ++ toString a)

/-! Planner lemmas -/

theorem part_size_pos (size parts : Nat) (hs : 0 < size) (hp : 1 ≤ parts) :
    0 < part_size size parts := by
  unfold part_size
  have h1 : 1 * parts ≤ size + parts - 1 := by omega
  exact (Nat.le_div_iff_mul_le (by omega)).mpr h1

theorem size_le_parts_mul (size parts : Nat) (hp : 1 ≤ parts) :
    size ≤ parts * part_size size parts := by
  unfold part_size
  have hd := Nat.div_add_mod (size + parts - 1) parts
  have hm : (size + parts - 1) % parts < parts := Nat.mod_lt _ (by omega)
  generalize hq : parts * ((size + parts - 1) / parts) = m at hd ⊢
  omega

theorem part_size_cast_pos (size parts : Nat) (hs : 0 < size) (hp : 1 ≤ parts) :
    (1 : Int) ≤ (part_size size parts : Int) := by
  exact_mod_cast part_size_pos size parts hs hp

/-- C1: the planner assigns segment i exactly the byte range from
i times the segment length up to the clamp at the last byte; the
segment lower bounds are strictly increasing, the segments are
ordered and pairwise disjoint, their union is exactly the byte
interval from 0 to total length minus 1, and each nonempty successor
segment starts exactly one past the end of its predecessor. -/
theorem plan_partition (size parts : Nat) (hs : 0 < size) (hp : 1 ≤ parts) :
    (∀ i : Nat,
        seg_start size parts i = (i : Int) * part_size size parts ∧
        seg_end size parts i =
          min (((i : Int) + 1) * part_size size parts - 1) ((size : Int) - 1)) ∧
    (∀ i j : Nat, i < j → seg_start size parts i < seg_start size parts j) ∧
    (∀ i j : Nat, i < j →
      ∀ x ∈ segSet size parts i, ∀ y ∈ segSet size parts j, x < y) ∧
    ((Finset.range parts).biUnion (fun i => segSet size parts i) =
      Finset.Icc (0 : Int) ((size : Int) - 1)) ∧
    (∀ i : Nat, i + 1 < parts → (segSet size parts (i + 1)).Nonempty →
      seg_start size parts (i + 1) = seg_end size parts i + 1) := by
  have hL := part_size_cast_pos size parts hs hp
  have hLn := part_size_pos size parts hs hp
  have hsz : (size : Int) ≤ (parts : Int) * (part_size size parts : Int) := by
    exact_mod_cast size_le_parts_mul size parts hp
  refine ⟨?_, ?_, ?_, ?_, ?_⟩
  · intro i
    refine ⟨rfl, ?_⟩
    unfold seg_end
    ring_nf
  · intro i j hij
    unfold seg_start
    have hij2 : (i : Int) < (j : Int) := by exact_mod_cast hij
    exact mul_lt_mul_of_pos_right hij2 (by linarith)
  · intro i j hij x hx y hy
    simp only [segSet, Finset.mem_Icc] at hx hy
    have h1 : x ≤ seg_end size parts i := hx.2
    have h2 : seg_end size parts i ≤ (i : Int) * part_size size parts
        + part_size size parts - 1 := min_le_left _ _
    have h3 : ((i : Int) + 1) * part_size size parts
        ≤ (j : Int) * part_size size parts := by
      have hij2 : (i : Int) + 1 ≤ (j : Int) := by exact_mod_cast hij
      exact mul_le_mul_of_nonneg_right hij2 (by linarith)
    have h4 : seg_start size parts j ≤ y := hy.1
    unfold seg_start at h4
    nlinarith [h1, h2, h3, h4]
  · ext x
    simp only [Finset.mem_biUnion, Finset.mem_range, segSet, Finset.mem_Icc]
    constructor
    · rintro ⟨i, hi, hx1, hx2⟩
      have h0 : (0 : Int) ≤ seg_start size parts i := by
        unfold seg_start
        have : (0 : Int) ≤ (i : Int) := by exact_mod_cast Nat.zero_le i
        nlinarith
      have h1 : seg_end size parts i ≤ (size : Int) - 1 := min_le_right _ _
      exact ⟨by linarith, by linarith⟩
    · rintro ⟨hx0, hx1⟩
      set L := part_size size parts with hLdef
      set n := x.toNat with hn
      have hxn : (n : Int) = x := Int.toNat_of_nonneg hx0
      have hns : n < size := by omega
      refine ⟨n / L, ?_, ?_, ?_⟩
      · have hnp : n < parts * L := lt_of_lt_of_le hns (size_le_parts_mul size parts hp)
        exact (Nat.div_lt_iff_lt_mul hLn).mpr (by omega)
      · unfold seg_start
        rw [← hxn, ← hLdef]
        exact_mod_cast Nat.div_mul_le_self n L
      · unfold seg_end
        refine le_min ?_ (by omega)
        have hd := Nat.div_add_mod n L
        have hm : n % L < L := Nat.mod_lt _ hLn
        have hlt : n < (n / L) * L + L := by
          generalize hmm : L * (n / L) = m at hd
          have hmm2 : (n / L) * L = m := by rw [← hmm]; ring
          omega
        have hlt2 : (n : Int) < (((n / L) * L + L : Nat) : Int) := by
          exact_mod_cast hlt
        rw [← hxn, ← hLdef]
        push_cast at hlt2 ⊢
        omega
  · intro i hi hne
    have hne2 := Finset.nonempty_Icc.mp hne
    unfold segSet at hne2
    have h1 : seg_end size parts (i + 1) ≤ (size : Int) - 1 := min_le_right _ _
    have h2 : seg_start size parts (i + 1) ≤ (size : Int) - 1 := le_trans hne2 h1
    unfold seg_start at h2 ⊢
    unfold seg_end
    have h3 : (i : Int) * part_size size parts + part_size size parts - 1
        ≤ (size : Int) - 1 := by push_cast at h2 ⊢; linarith
    rw [min_eq_left h3]
    push_cast
    ring

/-- Witness for C1 at total length 10 and 3 segments. -/
theorem plan_partition_witness :
    (0 < 10 ∧ 1 ≤ 3) ∧
    ((Finset.range 3).biUnion (fun i => segSet 10 3 i) =
      Finset.Icc (0 : Int) 9) :=
  ⟨⟨by decide, by decide⟩, (plan_partition 10 3 (by decide) (by decide)).2.2.2.1⟩

/-! Prober -/

/-- C6: the probe never raises: a transport fault on the ranged probe
yields range support false, a fault on both requests yields the pair
of 0 and false; range support is declared only for a response with
partial-content status 206 carrying a Content-Range header; and when
the metadata request leaves the size 0 (failure, error status, missing
or unparsable length) the size is recovered from a parsable
Content-Range total of the partial probe. -/
theorem probe_contract :
    (∀ head rng e, rng = Except.error e → (probe_size_and_range head rng).2 = false) ∧
    (∀ e e2, probe_size_and_range (Except.error e) (Except.error e2) = (0, false)) ∧
    (∀ head r, (probe_size_and_range head (Except.ok r)).2 = true →
      r.status = 206 ∧ r.contentRange.isSome = true) ∧
    (∀ head r cr n, headSize head = 0 → r.contentRange = some cr →
      crTotal cr = some n → (probe_size_and_range head (Except.ok r)).1 = n) := by
  refine ⟨?_, ?_, ?_, ?_⟩
  · rintro head rng e rfl
    simp [probe_size_and_range]
  · intro e e2
    simp [probe_size_and_range, headSize]
  · intro head r h
    simp only [probe_size_and_range, Bool.and_eq_true, beq_iff_eq] at h
    exact ⟨h.1, h.2⟩
  · intro head r cr n h0 hcr hn
    simp [probe_size_and_range, h0, hcr, hn]

/-- Witness for C6: a dead HEAD request with a partial probe whose
Content-Range carries the total 12345, and a dead partial probe. -/
theorem probe_contract_witness :
    (headSize (Except.error "no_route") = 0 ∧
      crTotal ("bytes 0-0/12345".toList) = some 12345) ∧
    (probe_size_and_range (Except.error "no_route")
      (Except.ok respProbeBig)).1 = 12345 ∧
    (probe_size_and_range respPlain200 (Except.error "timeout")).2 = false :=
  ⟨⟨rfl, by decide⟩,
    probe_contract.2.2.2 (Except.error "no_route") respProbeBig
      ("bytes 0-0/12345".toList) 12345 rfl rfl (by decide),
    probe_contract.1 respPlain200 (Except.error "timeout") "timeout" rfl⟩

/-! Worker lemmas -/

theorem streamChunks_total (cks : List BodyChunk) :
    ∀ s : StreamSt, 0 ≤ s.writeOff →
      (streamChunks cks s).2 = none ∧
      (streamChunks cks s).1.localDone = s.localDone + chunksTotal cks := by
  induction cks with
  | nil => intro s hs; simp [streamChunks, chunksTotal]
  | cons c rest ih =>
    intro s hs
    obtain ⟨d, fl⟩ := c
    by_cases hd : d.length = 0
    · have h0 : chunksTotal ((d, fl) :: rest) = chunksTotal rest := by
        simp [chunksTotal, hd]
      rw [h0]
      simpa [streamChunks, hd] using ih s hs
    · have hneg : ¬ s.writeOff < 0 := not_lt.mpr hs
      have ih2 := ih
        { file := write_at s.file s.writeOff.toNat d, writeOff := s.writeOff + d.length,
          localDone := s.localDone + d.length,
          st := if fl then write_state (s.localDone + d.length) else s.st,
          progress := s.progress + d.length } (by simp; omega)
      simp only [streamChunks]
      rw [if_neg hd, if_neg hneg]
      refine ⟨ih2.1, ?_⟩
      rw [ih2.2]
      simp [chunksTotal]
      ring

theorem chunksTotal_nonneg (cks : List BodyChunk) : 0 ≤ chunksTotal cks := by
  unfold chunksTotal
  induction cks with
  | nil => simp
  | cons c rest ih => simp only [List.map_cons, List.sum_cons]; positivity

theorem workerLoop_requests_le (resp : Nat → Except String HttpResponse)
    (start endB : Int) (retries : Nat) :
    ∀ fuel attempt st file,
      (workerLoop resp start endB retries fuel attempt st file).requests.length ≤ fuel := by
  intro fuel
  induction fuel with
  | zero => intro attempt st file; simp [workerLoop]
  | succ n ih =>
    intro attempt st file
    simp only [workerLoop]
    split
    · simp
    · split
      · simp
      · split
        · simp
        · rename_i e st2 f2 dp hA hle
          simp only [List.length_cons]
          have h := ih (attempt + 1) st2 f2
          omega

theorem workerLoop_sleeps (resp : Nat → Except String HttpResponse)
    (start endB : Int) (retries : Nat) :
    ∀ fuel attempt st file, ∃ k,
      (workerLoop resp start endB retries fuel attempt st file).sleeps =
        List.range' (attempt + 1) k ∧ (k = 0 ∨ attempt + k ≤ retries) := by
  intro fuel
  induction fuel with
  | zero => intro attempt st file; exact ⟨0, by simp [workerLoop], Or.inl rfl⟩
  | succ n ih =>
    intro attempt st file
    simp only [workerLoop]
    split
    · exact ⟨0, by simp, Or.inl rfl⟩
    · split
      · exact ⟨0, by simp, Or.inl rfl⟩
      · split
        · exact ⟨0, by simp, Or.inl rfl⟩
        · rename_i e st2 f2 dp hA hle
          obtain ⟨k, hk1, hk2⟩ := ih (attempt + 1) st2 f2
          refine ⟨k + 1, ?_, Or.inr (by omega)⟩
          simp only [List.range'_succ]
          rw [← hk1]

theorem runAttempt_ok_confirmed (r? : Except String HttpResponse) (start endB done : Int)
    (st : Option Int) (file : List Nat) (m : String) (st2 : Option Int)
    (f2 : List Nat) (dp : Int)
    (h : runAttempt r? start endB done st file = (AttemptRes.finished true m, st2, f2, dp)) :
    endB - start + 1 ≤ read_state st2 := by
  cases r? with
  | error e => simp [runAttempt] at h
  | ok r =>
    simp only [runAttempt] at h
    split at h
    · simp at h
    · split at h
      · simp at h
      · split at h
        · simp at h
        · split at h
          · simp at h
          · split at h
            · rename_i hcond
              simp only [Prod.mk.injEq] at h
              rw [← h.2.1]
              exact hcond
            · simp at h

theorem workerLoop_ok_confirmed (resp : Nat → Except String HttpResponse)
    (start endB : Int) (retries : Nat) :
    ∀ fuel attempt st file w,
      workerLoop resp start endB retries fuel attempt st file = w →
      w.ok = true → endB - start + 1 ≤ read_state w.st := by
  intro fuel
  induction fuel with
  | zero =>
    intro attempt st file w hw hok
    rw [← hw] at hok
    simp [workerLoop] at hok
  | succ n ih =>
    intro attempt st file w hw hok
    simp only [workerLoop] at hw
    split at hw
    · rename_i hdone
      rw [← hw] at hok ⊢
      exact hdone
    · split at hw
      · rename_i k m st2 f2 dp hA
        rw [← hw] at hok ⊢
        simp only at hok ⊢
        rw [hok] at hA
        exact runAttempt_ok_confirmed (resp attempt) start endB (read_state st) st file
          m st2 f2 dp hA
      · split at hw
        · rename_i e st2 f2 dp hA hgt
          rw [← hw] at hok
          simp at hok
        · rename_i e st2 f2 dp hA hle
          rw [← hw] at hok ⊢
          simp only at hok ⊢
          exact ih (attempt + 1) st2 f2 _ rfl hok

theorem workerLoop_head_request (resp : Nat → Except String HttpResponse)
    (start endB : Int) (retries fuel attempt : Nat) (st : Option Int) (file : List Nat)
    (hlt : read_state st < endB - start + 1) :
    (workerLoop resp start endB retries (fuel + 1) attempt st file).requests.head? =
      some (start + read_state st, endB) := by
  simp only [workerLoop]
  rw [if_neg (not_le.mpr hlt)]
  split
  · simp
  · split
    · simp
    · simp

theorem workerLoop_all_fail (resp : Nat → Except String HttpResponse)
    (start endB : Int) (retries : Nat) (es : Nat → String)
    (hresp : ∀ a, resp a = Except.error (es a)) :
    ∀ fuel attempt st file w, attempt + fuel = retries + 1 → attempt ≤ retries →
      workerLoop resp start endB retries fuel attempt st file = w →
      read_state st < endB - start + 1 →
      w.ok = false ∧ w.msg = "exception: " ++ es retries ∧ w.st = st := by
  intro fuel
  induction fuel with
  | zero => intro attempt st file w hfa hale hw hlt; omega
  | succ n ih =>
    intro attempt st file w hfa hale hw hlt
    simp only [workerLoop] at hw
    rw [if_neg (not_le.mpr hlt)] at hw
    rw [hresp attempt] at hw
    simp only [runAttempt] at hw
    split at hw
    · rename_i hgt
      have ha : attempt = retries := by omega
      rw [← hw, ha]
      exact ⟨rfl, rfl, rfl⟩
    · rename_i hle
      rw [← hw]
      simp only
      exact ih (attempt + 1) st file _ (by omega) (by omega) rfl hlt

theorem workerLoop_non206 (resp : Nat → Except String HttpResponse)
    (start endB : Int) (retries fuel attempt : Nat) (st : Option Int) (file : List Nat)
    (r : HttpResponse) (hr : resp attempt = Except.ok r) (h206 : r.status ≠ 206)
    (hlt : read_state st < endB - start + 1) :
    workerLoop resp start endB retries (fuel + 1) attempt st file =
      ⟨false, "range_not_honored_status_" ++ toString r.status, st, file, 0,
        [(start + read_state st, endB)], []⟩ := by
  simp only [workerLoop]
  rw [if_neg (not_le.mpr hlt), hr]
  simp only [runAttempt]
  rw [if_pos h206]

theorem workerLoop_noCR (resp : Nat → Except String HttpResponse)
    (start endB : Int) (retries fuel attempt : Nat) (st : Option Int) (file : List Nat)
    (r : HttpResponse) (hr : resp attempt = Except.ok r) (h206 : r.status = 206)
    (hcr : r.contentRange = none)
    (hlt : read_state st < endB - start + 1) :
    workerLoop resp start endB retries (fuel + 1) attempt st file =
      ⟨false, "missing_content_range", st, file, 0,
        [(start + read_state st, endB)], []⟩ := by
  simp only [workerLoop]
  rw [if_neg (not_le.mpr hlt), hr]
  simp only [runAttempt]
  rw [if_neg (by simp [h206]), if_pos hcr]

theorem workerLoop_unchanged (resp : Nat → Except String HttpResponse)
    (start endB : Int) (retries : Nat)
    (hresp : ∀ a r, resp a = Except.ok r → r.status ≠ 206) :
    ∀ fuel attempt st file,
      (workerLoop resp start endB retries fuel attempt st file).st = st ∧
      (workerLoop resp start endB retries fuel attempt st file).file = file := by
  intro fuel
  induction fuel with
  | zero => intro attempt st file; simp [workerLoop]
  | succ n ih =>
    intro attempt st file
    simp only [workerLoop]
    split
    · exact ⟨rfl, rfl⟩
    · rename_i hdone
      cases hr : resp attempt with
      | error e =>
        have hA : runAttempt (Except.error e) start endB (read_state st) st file =
            (AttemptRes.failed e, st, file, 0) := by simp [runAttempt]
        simp only [hA]
        split
        · exact ⟨rfl, rfl⟩
        · simpa using ih (attempt + 1) st file
      | ok r =>
        have h206 := hresp attempt r hr
        have hA : runAttempt (Except.ok r) start endB (read_state st) st file =
            (AttemptRes.finished false ("range_not_honored_status_" ++ toString r.status),
              st, file, 0) := by
          simp only [runAttempt]; rw [if_pos h206]
        simp [hA]

/-- C8: a worker whose stored confirmed count K already covers the
segment succeeds at once with no network request and no state change;
a worker with K below the segment length issues its ranged request
exactly from start + K to the segment end; and a worker returning
success has a confirmed count that reached at least the segment
length. -/
theorem resume_worker (resp : Nat → Except String HttpResponse) (start endB K : Int)
    (retries : Nat) (st0 : Option Int) (file : List Nat) (m : String)
    (hK : read_state st0 = K) :
    (endB - start + 1 ≤ K →
      download_part_direct resp start endB retries st0 (some file) =
        ⟨Except.ok (true, "ok"), st0, some file, 0, [], []⟩) ∧
    (K < endB - start + 1 →
      (download_part_direct resp start endB retries st0 (some file)).requests.head? =
        some (start + K, endB)) ∧
    ((download_part_direct resp start endB retries st0 (some file)).result =
        Except.ok (true, m) →
      endB - start + 1 ≤
        read_state (download_part_direct resp start endB retries st0 (some file)).st) := by
  refine ⟨?_, ?_, ?_⟩
  · intro hdone
    simp only [download_part_direct, workerLoop]
    rw [hK, if_pos hdone]
  · intro hlt
    simp only [download_part_direct]
    have h := workerLoop_head_request resp start endB retries retries 0 st0 file
      (by rw [hK]; exact hlt)
    simp only at h ⊢
    rw [h, hK]
  · intro hres
    simp only [download_part_direct] at hres ⊢
    have hok : (workerLoop resp start endB retries (retries + 1) 0 st0 file).ok = true := by
      have := hres
      simp only [Except.ok.injEq, Prod.mk.injEq] at this
      exact this.1
    exact workerLoop_ok_confirmed resp start endB retries (retries + 1) 0 st0 file _
      rfl hok

/-- Witness for C8: a segment of 10 bytes; a stored count of 12
completes at once; a stored count of 4 requests exactly bytes 4 to 9. -/
theorem resume_worker_witness :
    (read_state (some 12) = 12 ∧ (9 : Int) - 0 + 1 ≤ 12 ∧
      download_part_direct respThree 0 9 2 (some 12) (some (List.replicate 10 0)) =
        ⟨Except.ok (true, "ok"), some 12, some (List.replicate 10 0), 0, [], []⟩) ∧
    (read_state (some 4) = 4 ∧ (4 : Int) < 9 - 0 + 1 ∧
      (download_part_direct respThree 0 9 2 (some 4)
        (some (List.replicate 10 0))).requests.head? = some (0 + 4, 9)) :=
  ⟨⟨rfl, by decide,
      (resume_worker respThree 0 9 12 2 (some 12) (List.replicate 10 0) "ok" rfl).1
        (by decide)⟩,
    ⟨rfl, by decide,
      (resume_worker respThree 0 9 4 2 (some 4) (List.replicate 10 0) "ok" rfl).2.1
        (by decide)⟩⟩

theorem read_write_state (v : Int) : read_state (write_state v) = v := rfl

theorem workerLoop_succ (resp : Nat → Except String HttpResponse)
    (start endB : Int) (retries fuel attempt : Nat) (st : Option Int) (file : List Nat) :
    workerLoop resp start endB retries (fuel + 1) attempt st file =
      if endB - start + 1 ≤ read_state st then ⟨true, "ok", st, file, 0, [], []⟩
      else
        match runAttempt (resp attempt) start endB (read_state st) st file with
        | (AttemptRes.finished k m, st2, f2, dp) =>
            ⟨k, m, st2, f2, dp, [(start + read_state st, endB)], []⟩
        | (AttemptRes.failed e, st2, f2, dp) =>
          if retries < attempt + 1 then
            ⟨false, "exception: " ++ e, st2, f2, dp, [(start + read_state st, endB)], []⟩
          else
            let rest := workerLoop resp start endB retries fuel (attempt + 1) st2 f2
            ⟨rest.ok, rest.msg, rest.st, rest.file, dp + rest.progress,
              (start + read_state st, endB) :: rest.requests,
              (attempt + 1) :: rest.sleeps⟩ := by
  simp only [workerLoop]

/-- C9: a worker makes at most retries + 1 attempts; the sleeps
between consecutive attempts carry the exponent sequence 1, 2, ...
(the source sleeps backoff to that exponent, and at most retries
sleeps occur); a stream that ends with fewer bytes than the segment
still requires is retried, and the next attempt resumes exactly at
the flushed confirmed value; exhausting every attempt returns a
failure carrying the last error description. -/
theorem retry_budget (resp : Nat → Except String HttpResponse) (start endB : Int)
    (retries : Nat) (st0 : Option Int) (file : List Nat) (es : Nat → String)
    (r : HttpResponse) (K : Int) :
    ((download_part_direct resp start endB retries st0 (some file)).requests.length ≤
      retries + 1) ∧
    (∃ k, k ≤ retries ∧
      (download_part_direct resp start endB retries st0 (some file)).sleeps =
        List.range' 1 k) ∧
    (resp 0 = Except.ok r → r.status = 206 → r.contentRange ≠ none → r.abortErr = none →
      read_state st0 = K → 0 ≤ K → 0 ≤ start →
      K + chunksTotal r.chunks < endB - start + 1 → 1 ≤ retries →
      (download_part_direct resp start endB retries st0 (some file)).requests.take 2 =
        [(start + K, endB), (start + (K + chunksTotal r.chunks), endB)] ∧
      (download_part_direct resp start endB retries st0 (some file)).sleeps.head? =
        some 1) ∧
    ((∀ a, resp a = Except.error (es a)) → read_state st0 < endB - start + 1 →
      (download_part_direct resp start endB retries st0 (some file)).result =
        Except.ok (false, "exception: " ++ es retries)) := by
  refine ⟨?_, ?_, ?_, ?_⟩
  · simp only [download_part_direct]
    exact workerLoop_requests_le resp start endB retries (retries + 1) 0 st0 file
  · simp only [download_part_direct]
    obtain ⟨k, hk1, hk2⟩ := workerLoop_sleeps resp start endB retries (retries + 1) 0 st0 file
    exact ⟨k, by omega, hk1⟩
  · intro hr h206 hcr hab hK hK0 hst0 hshort hret
    obtain ⟨mr, rfl⟩ : ∃ mr, retries = mr + 1 := ⟨retries - 1, by omega⟩
    have hT0 := chunksTotal_nonneg r.chunks
    have hKlt : read_state st0 < endB - start + 1 := by rw [hK]; omega
    have hp := streamChunks_total r.chunks
      ⟨file, start + read_state st0, read_state st0, st0, 0⟩ (by simp; omega)
    have hL : (streamChunks r.chunks
        ⟨file, start + read_state st0, read_state st0, st0, 0⟩).1.localDone =
        K + chunksTotal r.chunks := by
      rw [hp.2]
      have h5 : (StreamSt.mk file (start + read_state st0)
          (read_state st0) st0 0).localDone = K := hK
      rw [h5]
    have hA : runAttempt (resp 0) start endB (read_state st0) st0 file =
        (AttemptRes.failed "short_read",
          write_state (streamChunks r.chunks
            ⟨file, start + read_state st0, read_state st0, st0, 0⟩).1.localDone,
          (streamChunks r.chunks
            ⟨file, start + read_state st0, read_state st0, st0, 0⟩).1.file,
          (streamChunks r.chunks
            ⟨file, start + read_state st0, read_state st0, st0, 0⟩).1.progress) := by
      rw [hr]
      simp only [runAttempt]
      rw [if_neg (by simp [h206]), if_neg hcr, hp.1, hab]
      have hcond : ¬ (endB - start + 1 ≤ read_state (write_state (streamChunks r.chunks
          ⟨file, start + read_state st0, read_state st0, st0, 0⟩).1.localDone)) := by
        rw [read_write_state, hL]
        omega
      rw [if_neg hcond]
    simp only [download_part_direct]
    rw [workerLoop_succ, if_neg (not_le.mpr hKlt), hA]
    simp only
    rw [if_neg (by omega)]
    simp only
    have hst2 : read_state (write_state (streamChunks r.chunks
        ⟨file, start + read_state st0, read_state st0, st0, 0⟩).1.localDone) =
        K + chunksTotal r.chunks := by
      rw [read_write_state, hL]
    have hhead := workerLoop_head_request resp start endB (mr + 1) mr 1
      (write_state (streamChunks r.chunks
        ⟨file, start + read_state st0, read_state st0, st0, 0⟩).1.localDone)
      (streamChunks r.chunks
        ⟨file, start + read_state st0, read_state st0, st0, 0⟩).1.file
      (by rw [hst2]; omega)
    rw [hst2] at hhead
    cases hreq : (workerLoop resp start endB (mr + 1) (mr + 1) 1
        (write_state (streamChunks r.chunks
          ⟨file, start + read_state st0, read_state st0, st0, 0⟩).1.localDone)
        (streamChunks r.chunks
          ⟨file, start + read_state st0, read_state st0, st0, 0⟩).1.file).requests with
    | nil =>
      rw [hreq] at hhead
      simp at hhead
    | cons a t =>
      rw [hreq] at hhead
      simp only [List.head?_cons, Option.some.injEq] at hhead
      constructor
      · simp only [hreq, List.take_succ_cons, List.take_zero, hK, hhead]
      · simp
  · intro hresp hlt
    simp only [download_part_direct]
    have h := workerLoop_all_fail resp start endB retries es hresp (retries + 1) 0 st0 file
      _ (by omega) (by omega) rfl hlt
    rw [h.1, h.2.1]

/-- Witness for C9: with a stored count of 4 on a 10 byte segment and
3 byte responses, the first two requests resume at 4 then at the
flushed 7, with one backoff sleep of exponent 1 between them; with a
transport fault on every attempt and a retry budget of 2, the final
failure carries the error of attempt 2. -/
theorem retry_budget_witness :
    ((download_part_direct respThree 0 9 2 (some 4)
        (some (List.replicate 10 0))).requests.take 2 =
      [(0 + 4, 9), (0 + (4 + chunksTotal respThreeBody.chunks), 9)] ∧
      (download_part_direct respThree 0 9 2 (some 4)
        (some (List.replicate 10 0))).sleeps.head? = some 1) ∧
    (download_part_direct respDying 0 9 2 none (some [])).result =
      Except.ok (false, "exception: " ++ ("err" ++ toString 2)) :=
  ⟨(retry_budget respThree 0 9 2 (some 4) (List.replicate 10 0)
      (fun a => "err" ++ toString a) respThreeBody 4).2.2.1
      rfl rfl (by decide) rfl rfl (by decide) (by decide) (by decide) (by decide),
    (retry_budget respDying 0 9 2 none [] (fun a => "err" ++ toString a)
      respThreeBody 0).2.2.2 (fun a => rfl) (by decide)⟩

/-! Orchestrator lemmas -/

theorem single_thread_no_false (resp : Except String HttpResponse) (openFails : Bool)
    (fs : Fs) : (single_thread_download resp openFails fs).1 ≠ Except.ok false := by
  cases resp with
  | error e => simp [single_thread_download]
  | ok r =>
    simp only [single_thread_download]
    split
    · simp
    · split
      · simp
      · cases habort : r.abortErr <;> simp [habort]

theorem single_thread_fs (resp : Except String HttpResponse) (openFails : Bool) (fs : Fs) :
    (single_thread_download resp openFails fs).2.stateFiles = fs.stateFiles ∧
    (single_thread_download resp openFails fs).2.stateDir = fs.stateDir := by
  cases resp with
  | error e => exact ⟨rfl, rfl⟩
  | ok r =>
    simp only [single_thread_download]
    split
    · exact ⟨rfl, rfl⟩
    · split
      · exact ⟨rfl, rfl⟩
      · cases habort : r.abortErr <;> simp [habort]

theorem removeStates_all_ok (env : Env) :
    ∀ l fs, (∀ i ∈ l, env.removeFails i = false) →
      (removeStates env l fs).2 = true ∧
      (removeStates env l fs).1.outFile = fs.outFile ∧
      (removeStates env l fs).1.stateDir = fs.stateDir ∧
      (∀ j, (removeStates env l fs).1.stateFiles j =
        if j ∈ l then none else fs.stateFiles j) := by
  intro l
  induction l with
  | nil => intro fs h; simp [removeStates]
  | cons i rest ih =>
    intro fs h
    have hi : env.removeFails i = false := h i (by simp)
    simp only [removeStates, hi]
    rw [if_neg (by simp)]
    obtain ⟨h1, h2, h3, h4⟩ := ih
      { fs with stateFiles := Function.update fs.stateFiles i none }
      (fun j hj => h j (by simp [hj]))
    refine ⟨h1, h2, h3, ?_⟩
    intro j
    rw [h4 j]
    by_cases hji : j ∈ rest
    · simp [hji]
    · by_cases hji2 : j = i
      · subst hji2
        simp [hji, Function.update]
      · simp [hji, hji2, Function.update]

theorem runWorkersAux_unchanged (env : Env) (sizeN parts retries : Nat)
    (hresp : ∀ i a r, env.workerResp i a = Except.ok r → r.status ≠ 206) :
    ∀ l fs, (runWorkersAux env sizeN parts retries l fs).1.stateFiles = fs.stateFiles ∧
      (runWorkersAux env sizeN parts retries l fs).1.outFile = fs.outFile ∧
      (runWorkersAux env sizeN parts retries l fs).1.stateDir = fs.stateDir := by
  intro l
  induction l with
  | nil => intro fs; simp [runWorkersAux]
  | cons i rest ih =>
    intro fs
    have hst : (download_part_direct (env.workerResp i) (seg_start sizeN parts i)
        (seg_end sizeN parts i) retries (fs.stateFiles i) fs.outFile).st =
        fs.stateFiles i ∧
        (match (download_part_direct (env.workerResp i) (seg_start sizeN parts i)
          (seg_end sizeN parts i) retries (fs.stateFiles i) fs.outFile).file with
         | some f => some f
         | none => fs.outFile) = fs.outFile := by
      cases hout : fs.outFile with
      | none => simp [download_part_direct]
      | some content =>
        simp only [download_part_direct]
        obtain ⟨hu1, hu2⟩ := workerLoop_unchanged (env.workerResp i)
          (seg_start sizeN parts i) (seg_end sizeN parts i) retries (hresp i)
          (retries + 1) 0 (fs.stateFiles i) content
        simp [hu1, hu2, hout]
    simp only [runWorkersAux]
    obtain ⟨h1, h2, h3⟩ := ih
      { fs with
        stateFiles := Function.update fs.stateFiles i
          (download_part_direct (env.workerResp i) (seg_start sizeN parts i)
            (seg_end sizeN parts i) retries (fs.stateFiles i) fs.outFile).st,
        outFile := match (download_part_direct (env.workerResp i) (seg_start sizeN parts i)
          (seg_end sizeN parts i) retries (fs.stateFiles i) fs.outFile).file with
          | some f => some f
          | none => fs.outFile }
    simp only at h1 h2 h3
    rw [h1, h2, h3]
    refine ⟨?_, hst.2, rfl⟩
    rw [hst.1, Function.update_eq_self]

theorem parallelPhase_presized (env : Env) (fs : Fs) (parts retries sizeN : Nat)
    (R : RunResult) (hR : parallelPhase env fs parts retries sizeN = R) :
    R.presized = fs.outFile := by
  simp only [parallelPhase] at hR
  split at hR
  · rw [← hR]
  · split at hR
    · rw [← hR]
    · split at hR
      · rw [← hR]
      · split at hR
        · rw [← hR]
        · rw [← hR]

theorem parallelPhase_no_seq (env : Env) (fs : Fs) (parts retries sizeN : Nat)
    (R : RunResult) (hR : parallelPhase env fs parts retries sizeN = R)
    (h : R.seqRan = false) :
    ∃ b, R.result = Except.ok b := by
  simp only [parallelPhase] at hR
  split at hR
  · rw [← hR] at h; simp at h
  · split at hR
    · rw [← hR]; exact ⟨false, rfl⟩
    · split at hR
      · rw [← hR]; exact ⟨false, rfl⟩
      · split at hR
        · rw [← hR]; exact ⟨false, rfl⟩
        · rw [← hR]; exact ⟨true, rfl⟩

theorem parallelPhase_fallback (env : Env) (fs : Fs) (parts retries sizeN : Nat)
    (R : RunResult) (fs1 : Fs) (rs : List (Except String (Bool × String))) (padd : Int)
    (hw : runWorkersAux env sizeN parts retries (List.range parts) fs = (fs1, rs, padd))
    (hR : parallelPhase env fs parts retries sizeN = R)
    (hany : rs.any isRangeFail = true) :
    R.seqRan = true ∧ R.fallback = true ∧
    R.result = (single_thread_download env.seqResp env.seqOpenFails fs1).1 ∧
    R.fs = (single_thread_download env.seqResp env.seqOpenFails fs1).2 ∧
    R.cleanupRan = false := by
  simp only [parallelPhase, hw] at hR
  rw [if_pos hany] at hR
  rw [← hR]
  exact ⟨rfl, rfl, rfl, rfl, rfl⟩

theorem parallelPhase_fail_leaves (env : Env) (fs : Fs) (parts retries sizeN : Nat)
    (R : RunResult) (fs1 : Fs) (rs : List (Except String (Bool × String))) (padd : Int)
    (hw : runWorkersAux env sizeN parts retries (List.range parts) fs = (fs1, rs, padd))
    (hR : parallelPhase env fs parts retries sizeN = R)
    (hres : R.result = Except.ok false) :
    R.fs = fs1 ∧ R.cleanupRan = false := by
  simp only [parallelPhase, hw] at hR
  split at hR
  · rw [← hR] at hres
    exact absurd hres (single_thread_no_false env.seqResp env.seqOpenFails fs1)
  · split at hR
    · rw [← hR]; exact ⟨rfl, rfl⟩
    · split at hR
      · rw [← hR]; exact ⟨rfl, rfl⟩
      · split at hR
        · rw [← hR]; exact ⟨rfl, rfl⟩
        · rw [← hR] at hres; simp at hres

theorem parallelPhase_success_cleanup (env : Env) (fs : Fs) (parts retries sizeN : Nat)
    (R : RunResult) (fs1 : Fs) (rs : List (Except String (Bool × String))) (padd : Int)
    (hw : runWorkersAux env sizeN parts retries (List.range parts) fs = (fs1, rs, padd))
    (hR : parallelPhase env fs parts retries sizeN = R)
    (hres : R.result = Except.ok true) (hsr : R.seqRan = false) :
    R.fs = cleanupStates env parts fs1 ∧ R.cleanupRan = true := by
  simp only [parallelPhase, hw] at hR
  split at hR
  · rw [← hR] at hsr; simp at hsr
  · split at hR
    · rw [← hR] at hres; simp at hres
    · split at hR
      · rw [← hR] at hres; simp at hres
      · split at hR
        · rw [← hR] at hres; simp at hres
        · rw [← hR]; exact ⟨rfl, rfl⟩

/-- C4 (amended): a parallel run that reaches the verification phase
returns success precisely when every segment confirmed count is at
least (not equal to) its planned length and, unless the final size
stat fails (in which case the size check is silently skipped), the
output size equals the probed total; a stored count exceeding the
planned length still verifies (see the counterexample). -/
theorem parallelPhase_verified_iff (env : Env) (fs : Fs) (parts retries sizeN : Nat)
    (R : RunResult) (fs1 : Fs) (rs : List (Except String (Bool × String))) (padd : Int)
    (cs : List Int)
    (hw : runWorkersAux env sizeN parts retries (List.range parts) fs = (fs1, rs, padd))
    (hR : parallelPhase env fs parts retries sizeN = R)
    (hv : R.verified = some cs) :
    (R.result = Except.ok true ↔
      (∀ i, i < parts → expectedLen sizeN parts i ≤ read_state (fs1.stateFiles i)) ∧
      (env.finalStatFails = true ∨ (fs1.outFile.getD []).length = sizeN)) := by
  simp only [parallelPhase, hw] at hR
  split at hR
  · rw [← hR] at hv; simp at hv
  · split at hR
    · rw [← hR] at hv; simp at hv
    · split at hR
      · rename_i hinc
        rw [← hR]
        simp only [List.any_eq_true, List.mem_range, decide_eq_true_eq] at hinc
        obtain ⟨i, hi, hlt⟩ := hinc
        constructor
        · intro h; simp at h
        · rintro ⟨h1, h2⟩
          exact absurd (h1 i hi) (not_le.mpr hlt)
      · split at hR
        · rename_i hinc hsz
          rw [← hR]
          constructor
          · intro h; simp at h
          · rintro ⟨h1, h2⟩
            rcases h2 with h2 | h2
            · rw [hsz.1] at h2; exact absurd h2 (by simp)
            · exact absurd h2 hsz.2
        · rename_i hinc hsz
          rw [← hR]
          simp only [List.any_eq_true, List.mem_range, decide_eq_true_eq] at hinc
          push_neg at hinc
          constructor
          · intro h
            refine ⟨fun i hi => hinc i hi, ?_⟩
            by_cases hf : env.finalStatFails = true
            · exact Or.inl hf
            · right
              by_contra hne
              exact hsz ⟨by simpa using hf, hne⟩
          · intro h; rfl

theorem parallel_download_degrade (env : Env) (fs0 : Fs) (parts retries : Nat)
    (R : RunResult) (hR : parallel_download env fs0 parts retries = R)
    (hcond : (probe_size_and_range env.headResp env.probeResp).1 ≤ 0 ∨
      (probe_size_and_range env.headResp env.probeResp).2 = false ∨ parts ≤ 1) :
    R.seqRan = true ∧
    R.result = (single_thread_download env.seqResp env.seqOpenFails fs0).1 ∧
    R.fs.stateFiles = fs0.stateFiles ∧ R.fs.stateDir = fs0.stateDir := by
  simp only [parallel_download] at hR
  by_cases h0 : (probe_size_and_range env.headResp env.probeResp).1 ≤ 0
  · rw [if_pos h0] at hR
    rw [← hR]
    exact ⟨rfl, rfl, (single_thread_fs env.seqResp env.seqOpenFails fs0).1,
      (single_thread_fs env.seqResp env.seqOpenFails fs0).2⟩
  · have h2 : (probe_size_and_range env.headResp env.probeResp).2 = false ∨ parts ≤ 1 := by
      rcases hcond with h | h | h
      · exact absurd h h0
      · exact Or.inl h
      · exact Or.inr h
    rw [if_neg h0, if_pos h2] at hR
    rw [← hR]
    exact ⟨rfl, rfl, (single_thread_fs env.seqResp env.seqOpenFails fs0).1,
      (single_thread_fs env.seqResp env.seqOpenFails fs0).2⟩

/-- C2 (amended): the worker retry loop and the verification phase
absorb their faults, so every run that does not invoke the sequential
transfer, does not fail creating the state sidecar directory, and
does not create a missing output file ends in a result value; the
sequential transfer path, the unguarded os.makedirs of the state
directory, and the creation of a missing output file can instead let
an exception escape (see the counterexample). -/
theorem engine_total_no_seq (env : Env) (fs0 : Fs) (parts retries : Nat)
    (R : RunResult) (hR : parallel_download env fs0 parts retries = R)
    (hsr : R.seqRan = false)
    (hmkdir : env.mkdirFails = false)
    (hcreate : fs0.outFile ≠ none ∨ env.createFails = false) :
    ∃ b, R.result = Except.ok b := by
  simp only [parallel_download] at hR
  split at hR
  · rw [← hR] at hsr; simp at hsr
  · split at hR
    · rw [← hR] at hsr; simp at hsr
    · rw [if_neg (by simp [hmkdir])] at hR
      split at hR
      · rename_i hout
        split at hR
        · rename_i hcf
          rcases hcreate with hc | hc
          · exact absurd hout hc
          · rw [hc] at hcf; exact absurd hcf (by simp)
        · exact parallelPhase_no_seq _ _ _ _ _ _ hR hsr
      · rename_i content hout
        split at hR
        · rw [← hR] at hsr; simp at hsr
        · split at hR
          · split at hR
            · rw [← hR] at hsr; simp at hsr
            · exact parallelPhase_no_seq _ _ _ _ _ _ hR hsr
          · exact parallelPhase_no_seq _ _ _ _ _ _ hR hsr

/-- Counterexample to C2 as stated: with the probe unable to determine
a size and the sequential transfer dying on connect, the engine
propagates the transport exception to its caller instead of returning
a result value. -/
theorem engine_raises_cex :
    (parallel_download envAllDead fsEmpty 4 2).result =
      Except.error "connection_refused" ∧
    ∀ b, (parallel_download envAllDead fsEmpty 4 2).result ≠ Except.ok b := by
  refine ⟨rfl, fun b h => ?_⟩
  exact Except.noConfusion
    ((rfl : Except.error "connection_refused" =
      (parallel_download envAllDead fsEmpty 4 2).result).trans h)

/-- Witness for the amended C2: a full happy parallel run neither runs
the sequential transfer nor raises, and ends in a result value. -/
theorem engine_total_no_seq_witness :
    (parallel_download envHappy fsEmpty 2 1).seqRan = false ∧
    envHappy.mkdirFails = false ∧
    (fsEmpty.outFile ≠ none ∨ envHappy.createFails = false) ∧
    ∃ b, (parallel_download envHappy fsEmpty 2 1).result = Except.ok b :=
  ⟨rfl, rfl, Or.inr rfl,
    engine_total_no_seq envHappy fsEmpty 2 1 _ rfl rfl rfl (Or.inr rfl)⟩

theorem parallel_download_presize_fault_seq (env : Env) (fs0 : Fs) (parts retries : Nat)
    (R : RunResult) (content : List Nat)
    (hR : parallel_download env fs0 parts retries = R)
    (h0 : 0 < (probe_size_and_range env.headResp env.probeResp).1)
    (hr2 : (probe_size_and_range env.headResp env.probeResp).2 = true)
    (hp : 1 < parts)
    (hmkdir : env.mkdirFails = false)
    (hout : fs0.outFile = some content)
    (hfail : env.statFails = true ∨
      (content.length ≠ (probe_size_and_range env.headResp env.probeResp).1.toNat ∧
        env.resizeFails = true)) :
    R.seqRan = true ∧
    R.result = (single_thread_download env.seqResp env.seqOpenFails
      { fs0 with stateDir := true }).1 ∧
    R.fs = (single_thread_download env.seqResp env.seqOpenFails
      { fs0 with stateDir := true }).2 := by
  simp only [parallel_download] at hR
  rw [if_neg (not_le.mpr h0)] at hR
  rw [if_neg (by simp [hr2]; omega)] at hR
  rw [if_neg (by simp [hmkdir])] at hR
  rw [hout] at hR
  simp only at hR
  by_cases hsf : env.statFails = true
  · rw [if_pos hsf] at hR
    rw [← hR]
    refine ⟨rfl, ?_, ?_⟩ <;> rw [hout]
  · rcases hfail with hf | ⟨hne, hrf⟩
    · exact absurd hf hsf
    · rw [if_neg hsf, if_pos hne, if_pos hrf] at hR
      rw [← hR]
      refine ⟨rfl, ?_, ?_⟩ <;> rw [hout]

/-- C7 (amended): when the output file exists and its stat or its
resize fails, the orchestrator (having already created the state
directory) falls back to the sequential transfer and returns its
result; the claimed fallback does not cover creating a missing output
file, whose fault propagates (see the counterexample). -/
theorem presize_existing_fallback (env : Env) (fs0 : Fs) (parts retries : Nat)
    (R : RunResult) (content : List Nat)
    (hR : parallel_download env fs0 parts retries = R)
    (h0 : 0 < (probe_size_and_range env.headResp env.probeResp).1)
    (hr2 : (probe_size_and_range env.headResp env.probeResp).2 = true)
    (hp : 1 < parts)
    (hmkdir : env.mkdirFails = false)
    (hout : fs0.outFile = some content)
    (hfail : env.statFails = true ∨
      (content.length ≠ (probe_size_and_range env.headResp env.probeResp).1.toNat ∧
        env.resizeFails = true)) :
    R.seqRan = true ∧
    R.result = (single_thread_download env.seqResp env.seqOpenFails
      { fs0 with stateDir := true }).1 := by
  obtain ⟨h1, h2, h3⟩ := parallel_download_presize_fault_seq env fs0 parts retries R
    content hR h0 hr2 hp hmkdir hout hfail
  exact ⟨h1, h2⟩

/-- Counterexample to C7 as stated: the output file does not exist and
creating it fails; the run raises the filesystem error instead of
falling back to the sequential transfer. -/
theorem presize_create_raises_cex :
    (parallel_download envCreateFail fsEmpty 2 1).result =
      Except.error "presize_create_failed" ∧
    (parallel_download envCreateFail fsEmpty 2 1).seqRan = false ∧
    ∀ b, (parallel_download envCreateFail fsEmpty 2 1).result ≠ Except.ok b := by
  refine ⟨rfl, rfl, fun b h => ?_⟩
  exact Except.noConfusion
    ((rfl : Except.error "presize_create_failed" =
      (parallel_download envCreateFail fsEmpty 2 1).result).trans h)

/-- Witness for the amended C7: a failing stat on the existing two
byte output file degrades the run to the sequential transfer and
returns its result. -/
theorem presize_existing_fallback_witness :
    ((0 : Int) < (probe_size_and_range envStatFail.headResp envStatFail.probeResp).1 ∧
      (probe_size_and_range envStatFail.headResp envStatFail.probeResp).2 = true ∧
      envStatFail.mkdirFails = false ∧
      fsTwoByte.outFile = some [9, 9] ∧ envStatFail.statFails = true) ∧
    (parallel_download envStatFail fsTwoByte 2 1).seqRan = true ∧
    (parallel_download envStatFail fsTwoByte 2 1).result =
      (single_thread_download envStatFail.seqResp envStatFail.seqOpenFails
        { fsTwoByte with stateDir := true }).1 :=
  ⟨⟨by decide, rfl, rfl, rfl, rfl⟩,
    presize_existing_fallback envStatFail fsTwoByte 2 1 _ [9, 9] rfl (by decide) rfl
      (by decide) rfl rfl (Or.inl rfl)⟩

/-- C10: when the output file already exists with exactly the probed
size, the pre-sizing step neither recreates nor truncates it: the
bytes the file held when the run started are exactly the bytes it
holds when the workers are dispatched. -/
theorem presize_preserves_existing (env : Env) (fs0 : Fs) (parts retries : Nat)
    (R : RunResult) (content : List Nat)
    (hR : parallel_download env fs0 parts retries = R)
    (h0 : 0 < (probe_size_and_range env.headResp env.probeResp).1)
    (hr2 : (probe_size_and_range env.headResp env.probeResp).2 = true)
    (hp : 1 < parts)
    (hmkdir : env.mkdirFails = false)
    (hout : fs0.outFile = some content)
    (hsf : env.statFails = false)
    (hlen : content.length = (probe_size_and_range env.headResp env.probeResp).1.toNat) :
    R.presized = some content := by
  simp only [parallel_download] at hR
  rw [if_neg (not_le.mpr h0)] at hR
  rw [if_neg (by simp [hr2]; omega)] at hR
  rw [if_neg (by simp [hmkdir])] at hR
  rw [hout] at hR
  simp only at hR
  rw [if_neg (by simp [hsf])] at hR
  rw [if_neg (by simp [hlen])] at hR
  have h := parallelPhase_presized env _ parts retries _ R hR
  rw [h]

/-- Witness for C10: a pre-existing two byte output file of bytes
9, 9 on a probed size of 2 survives the pre-sizing step unchanged. -/
theorem presize_preserves_existing_witness :
    ((0 : Int) < (probe_size_and_range envHappy.headResp envHappy.probeResp).1 ∧
      (probe_size_and_range envHappy.headResp envHappy.probeResp).2 = true ∧
      envHappy.mkdirFails = false ∧
      fsTwoByte.outFile = some [9, 9] ∧ envHappy.statFails = false ∧
      ([9, 9] : List Nat).length =
        (probe_size_and_range envHappy.headResp envHappy.probeResp).1.toNat) ∧
    (parallel_download envHappy fsTwoByte 2 1).presized = some [9, 9] :=
  ⟨⟨by decide, rfl, rfl, rfl, rfl, by decide⟩,
    presize_preserves_existing envHappy fsTwoByte 2 1 _ [9, 9] rfl (by decide) rfl
      (by decide) rfl rfl rfl (by decide)⟩

/-- C3 (amended): a ranged response without partial-content status
fails the attempt at once, with no local retry, under the
distinguished reason prefixed range_not_honored_status_, and any
worker reporting such a reason makes the orchestrator run the global
sequential fallback and return its result; a partial-content response
that merely lacks the Content-Range header also fails at once without
local retry, but under the reason missing_content_range, which the
orchestrator counts as a plain segment failure and does not escalate
(see the counterexample). -/
theorem range_not_honored_behavior :
    (∀ (resp : Nat → Except String HttpResponse) (start endB : Int) (retries : Nat)
        (st0 : Option Int) (file : List Nat) (r : HttpResponse),
      resp 0 = Except.ok r → r.status ≠ 206 → read_state st0 < endB - start + 1 →
      download_part_direct resp start endB retries st0 (some file) =
        ⟨Except.ok (false, "range_not_honored_status_" ++ toString r.status), st0,
          some file, 0, [(start + read_state st0, endB)], []⟩) ∧
    (∀ (resp : Nat → Except String HttpResponse) (start endB : Int) (retries : Nat)
        (st0 : Option Int) (file : List Nat) (r : HttpResponse),
      resp 0 = Except.ok r → r.status = 206 → r.contentRange = none →
      read_state st0 < endB - start + 1 →
      download_part_direct resp start endB retries st0 (some file) =
        ⟨Except.ok (false, "missing_content_range"), st0, some file,
          0, [(start + read_state st0, endB)], []⟩) ∧
    (∀ (env : Env) (fs : Fs) (parts retries sizeN : Nat) (R : RunResult) (fs1 : Fs)
        (rs : List (Except String (Bool × String))) (padd : Int),
      runWorkersAux env sizeN parts retries (List.range parts) fs = (fs1, rs, padd) →
      parallelPhase env fs parts retries sizeN = R →
      rs.any isRangeFail = true →
      R.seqRan = true ∧ R.fallback = true ∧
      R.result = (single_thread_download env.seqResp env.seqOpenFails fs1).1) ∧
    (isRangeFail (Except.ok (false, "missing_content_range")) = false ∧
      ∀ n : Nat,
        isRangeFail (Except.ok (false, "range_not_honored_status_" ++ toString n)) =
          true) := by
  refine ⟨?_, ?_, ?_, ?_, ?_⟩
  · intro resp start endB retries st0 file r hr h206 hlt
    simp only [download_part_direct]
    rw [workerLoop_non206 resp start endB retries retries 0 st0 file r hr h206 hlt]
  · intro resp start endB retries st0 file r hr h206 hcr hlt
    simp only [download_part_direct]
    rw [workerLoop_noCR resp start endB retries retries 0 st0 file r hr h206 hcr hlt]
  · intro env fs parts retries sizeN R fs1 rs padd hw hR hany
    obtain ⟨h1, h2, h3, h4, h5⟩ :=
      parallelPhase_fallback env fs parts retries sizeN R fs1 rs padd hw hR hany
    exact ⟨h1, h2, h3⟩
  · decide
  · intro n
    simp only [isRangeFail, pyStartsWith]
    have h : ("range_not_honored_status_" ++ toString n).toList =
        "range_not_honored_status_".toList ++ (toString n).toList := by
      simp [String.toList]
    rw [h, List.isPrefixOf_iff_prefix]
    exact List.prefix_append _ _

/-- Counterexample to C3 as stated: worker 0 receives a 206 response
without a Content-Range header; its reason is missing_content_range,
not the range_not_honored marker, and the orchestrator reports plain
failure without running the sequential fallback. -/
theorem missing_content_range_no_fallback_cex :
    (parallel_download envNoCR fsEmpty 2 1).workerResults =
      some [Except.ok (false, "missing_content_range"), Except.ok (true, "ok")] ∧
    (parallel_download envNoCR fsEmpty 2 1).result = Except.ok false ∧
    (parallel_download envNoCR fsEmpty 2 1).seqRan = false ∧
    (parallel_download envNoCR fsEmpty 2 1).fallback = false :=
  ⟨rfl, rfl, rfl, rfl⟩

/-- Witness for the amended C3: a server answering 200 to every
worker request makes the parallel phase fall back globally to the
sequential transfer; a single worker on such a response fails at once
with the distinguished marker and exactly one request. -/
theorem range_not_honored_witness :
    ((parallelPhase envAll200 fsPre2 2 1 2).seqRan = true ∧
      (parallelPhase envAll200 fsPre2 2 1 2).fallback = true ∧
      (parallelPhase envAll200 fsPre2 2 1 2).result =
        (single_thread_download envAll200.seqResp envAll200.seqOpenFails
          (runWorkersAux envAll200 2 2 1 (List.range 2) fsPre2).1).1) ∧
    download_part_direct (fun _ => respPlain200) 0 1 3 none (some [0, 0]) =
      ⟨Except.ok (false, "range_not_honored_status_" ++ toString 200), none,
        some [0, 0], 0, [(0 + read_state none, 1)], []⟩ :=
  ⟨range_not_honored_behavior.2.2.1 envAll200 fsPre2 2 1 2 _
      (runWorkersAux envAll200 2 2 1 (List.range 2) fsPre2).1
      (runWorkersAux envAll200 2 2 1 (List.range 2) fsPre2).2.1
      (runWorkersAux envAll200 2 2 1 (List.range 2) fsPre2).2.2
      rfl rfl rfl,
    range_not_honored_behavior.1 (fun _ => respPlain200) 0 1 3 none [0, 0]
      plain200Body rfl (by decide) (by decide)⟩

/-- Counterexample to C4 as stated: with a stale resume entry claiming
5 confirmed bytes on a 1 byte segment, the verification accepts the
run and the overall result is success, although the confirmed count
does not equal the planned length. -/
theorem verify_overcount_success_cex :
    (parallel_download envHappy fsOvercount 2 1).result = Except.ok true ∧
    (parallel_download envHappy fsOvercount 2 1).verified = some [5, 1] ∧
    expectedLen 2 2 0 = 1 ∧ (5 : Int) ≠ 1 :=
  ⟨rfl, rfl, rfl, by decide⟩

/-- Witness for the amended C4 on a happy two segment run that
reaches verification and succeeds. -/
theorem parallelPhase_verified_iff_witness :
    (parallelPhase envHappy fsPre2 2 1 2).verified =
      some ((List.range 2).map (fun i =>
        read_state ((runWorkersAux envHappy 2 2 1 (List.range 2) fsPre2).1.stateFiles i))) ∧
    ((parallelPhase envHappy fsPre2 2 1 2).result = Except.ok true ↔
      (∀ i, i < 2 → expectedLen 2 2 i ≤
        read_state ((runWorkersAux envHappy 2 2 1 (List.range 2) fsPre2).1.stateFiles i)) ∧
      (envHappy.finalStatFails = true ∨
        (((runWorkersAux envHappy 2 2 1 (List.range 2) fsPre2).1.outFile).getD
          []).length = 2)) :=
  ⟨rfl,
    parallelPhase_verified_iff envHappy fsPre2 2 1 2 _
      (runWorkersAux envHappy 2 2 1 (List.range 2) fsPre2).1
      (runWorkersAux envHappy 2 2 1 (List.range 2) fsPre2).2.1
      (runWorkersAux envHappy 2 2 1 (List.range 2) fsPre2).2.2
      ((List.range 2).map (fun i =>
        read_state ((runWorkersAux envHappy 2 2 1 (List.range 2) fsPre2).1.stateFiles i)))
      rfl rfl rfl⟩

/-- C5 (amended): cleanup of the resume store is best effort.
On a fully successful parallel run the engine attempts to delete
every state entry and then their directory, and when no removal
fails they are all gone; a removal fault is swallowed and the run
still reports success with the remaining entries on disk (see the
counterexample).  A failed run performs no cleanup and leaves the
post-worker entries intact.  A run whose workers only ever see
non-partial responses (the global fallback scenario) writes no state
entry at all.  A run degraded to sequential by the probe (unknown
size, missing range support, or a single requested part) touches
neither the entries nor the directory; a run degraded by a
pre-sizing stat or resize fault leaves every entry untouched, but
the state directory, created just before pre-sizing, remains. -/
theorem resume_cleanup_behavior :
    (∀ (env : Env) (fs : Fs) (parts retries sizeN : Nat) (R : RunResult) (fs1 : Fs)
        (rs : List (Except String (Bool × String))) (padd : Int),
      runWorkersAux env sizeN parts retries (List.range parts) fs = (fs1, rs, padd) →
      parallelPhase env fs parts retries sizeN = R →
      R.result = Except.ok true → R.seqRan = false →
      (∀ i, i < parts → env.removeFails i = false) → env.rmdirFails = false →
      (∀ i, i < parts → R.fs.stateFiles i = none) ∧ R.fs.stateDir = false) ∧
    (∀ (env : Env) (fs : Fs) (parts retries sizeN : Nat) (R : RunResult) (fs1 : Fs)
        (rs : List (Except String (Bool × String))) (padd : Int),
      runWorkersAux env sizeN parts retries (List.range parts) fs = (fs1, rs, padd) →
      parallelPhase env fs parts retries sizeN = R →
      R.result = Except.ok false →
      R.fs = fs1 ∧ R.cleanupRan = false) ∧
    (∀ (env : Env) (fs : Fs) (parts retries sizeN : Nat) (R : RunResult),
      (∀ i a r, env.workerResp i a = Except.ok r → r.status ≠ 206) →
      parallelPhase env fs parts retries sizeN = R →
      R.cleanupRan = false →
      ∀ j, R.fs.stateFiles j = fs.stateFiles j) ∧
    (∀ (env : Env) (fs0 : Fs) (parts retries : Nat) (R : RunResult),
      parallel_download env fs0 parts retries = R →
      ((probe_size_and_range env.headResp env.probeResp).1 ≤ 0 ∨
        (probe_size_and_range env.headResp env.probeResp).2 = false ∨ parts ≤ 1) →
      R.fs.stateFiles = fs0.stateFiles ∧ R.fs.stateDir = fs0.stateDir) ∧
    (∀ (env : Env) (fs0 : Fs) (parts retries : Nat) (R : RunResult) (content : List Nat),
      parallel_download env fs0 parts retries = R →
      0 < (probe_size_and_range env.headResp env.probeResp).1 →
      (probe_size_and_range env.headResp env.probeResp).2 = true →
      1 < parts → env.mkdirFails = false →
      fs0.outFile = some content →
      (env.statFails = true ∨
        (content.length ≠ (probe_size_and_range env.headResp env.probeResp).1.toNat ∧
          env.resizeFails = true)) →
      (∀ j, R.fs.stateFiles j = fs0.stateFiles j) ∧ R.fs.stateDir = true) := by
  refine ⟨?_, ?_, ?_, ?_, ?_⟩
  · intro env fs parts retries sizeN R fs1 rs padd hw hR hres hsr hrm hrd
    obtain ⟨hfs, hcl⟩ :=
      parallelPhase_success_cleanup env fs parts retries sizeN R fs1 rs padd hw hR hres hsr
    obtain ⟨hp2, hpo, hpd, hpf⟩ := removeStates_all_ok env (List.range parts) fs1
      (fun i hi => hrm i (List.mem_range.mp hi))
    rw [hfs]
    simp only [cleanupStates]
    rw [if_pos ⟨hp2, hrd⟩]
    constructor
    · intro i hi
      have := hpf i
      rw [if_pos (List.mem_range.mpr hi)] at this
      exact this
    · rfl
  · intro env fs parts retries sizeN R fs1 rs padd hw hR hres
    exact parallelPhase_fail_leaves env fs parts retries sizeN R fs1 rs padd hw hR hres
  · intro env fs parts retries sizeN R hresp hR hcl j
    obtain ⟨hu1, hu2, hu3⟩ :=
      runWorkersAux_unchanged env sizeN parts retries hresp (List.range parts) fs
    simp only [parallelPhase] at hR
    split at hR
    · rw [← hR]
      simp only
      rw [(single_thread_fs env.seqResp env.seqOpenFails _).1, hu1]
    · split at hR
      · rw [← hR]; simp only; rw [hu1]
      · split at hR
        · rw [← hR]; simp only; rw [hu1]
        · split at hR
          · rw [← hR]; simp only; rw [hu1]
          · rw [← hR] at hcl; simp at hcl
  · intro env fs0 parts retries R hR hcond
    obtain ⟨h1, h2, h3, h4⟩ := parallel_download_degrade env fs0 parts retries R hR hcond
    exact ⟨h3, h4⟩
  · intro env fs0 parts retries R content hR h0 hr2 hp hmk hout hfail
    obtain ⟨h1, h2, h3⟩ := parallel_download_presize_fault_seq env fs0 parts retries R
      content hR h0 hr2 hp hmk hout hfail
    rw [h3]
    constructor
    · intro j
      rw [(single_thread_fs env.seqResp env.seqOpenFails _).1]
    · rw [(single_thread_fs env.seqResp env.seqOpenFails _).2]

/-- Counterexample to C5 as stated: a fully successful run whose
remove of the first state entry fails still reports success while
both resume entries and their directory remain on disk. -/
theorem cleanup_failure_cex :
    (parallel_download envRmFail fsEmpty 2 1).result = Except.ok true ∧
    (parallel_download envRmFail fsEmpty 2 1).fs.stateFiles 0 = some 1 ∧
    (parallel_download envRmFail fsEmpty 2 1).fs.stateFiles 1 = some 1 ∧
    (parallel_download envRmFail fsEmpty 2 1).fs.stateDir = true :=
  ⟨rfl, rfl, rfl, rfl⟩

/-- Witness for the amended C5: on the happy two segment run with a
healthy filesystem, the state entries and the directory are gone
after success. -/
theorem resume_cleanup_behavior_witness :
    (parallelPhase envHappy fsPre2 2 1 2).result = Except.ok true ∧
    (∀ i, i < 2 → (parallelPhase envHappy fsPre2 2 1 2).fs.stateFiles i = none) ∧
    (parallelPhase envHappy fsPre2 2 1 2).fs.stateDir = false :=
  ⟨rfl,
    (resume_cleanup_behavior.1 envHappy fsPre2 2 1 2 _
      (runWorkersAux envHappy 2 2 1 (List.range 2) fsPre2).1
      (runWorkersAux envHappy 2 2 1 (List.range 2) fsPre2).2.1
      (runWorkersAux envHappy 2 2 1 (List.range 2) fsPre2).2.2
      rfl rfl rfl rfl (fun _ _ => rfl) rfl).1,
    (resume_cleanup_behavior.1 envHappy fsPre2 2 1 2 _
      (runWorkersAux envHappy 2 2 1 (List.range 2) fsPre2).1
      (runWorkersAux envHappy 2 2 1 (List.range 2) fsPre2).2.1
      (runWorkersAux envHappy 2 2 1 (List.range 2) fsPre2).2.2
      rfl rfl rfl rfl (fun _ _ => rfl) rfl).2⟩
